import Mathlib

/-!
Verification of the symbol resolution core of drgn-work.

The visible source (`src/libdrgn/python/symbol.c`) is the Python binding
shim for symbols: `Symbol_richcompare`, the five getters, and
`Symbol_repr`.  The underlying libdrgn symbol engine
(`drgn_symbol_eq`, the `drgn_symbol_*` field accessors, symbol
construction, and the symbol index) is part of this repository but not
among the provided sources; those parts are modelled from the spec and
marked `Modelled from the spec:` in their doc comments.
-/

namespace DrgnSymbol

/-- Modelled from the spec: the binding enumeration
{UNKNOWN, LOCAL, GLOBAL, WEAK, UNIQUE} (a closed tagged enumeration,
as the C `enum drgn_symbol_binding` is not among the sources). -/
inductive SymbolBinding where
  | UNKNOWN
  | LOCAL
  | GLOBAL
  | WEAK
  | UNIQUE
  deriving DecidableEq, Repr

/-- Modelled from the spec: the kind enumeration
{UNKNOWN, NOTYPE, OBJECT, FUNC, SECTION, FILE, COMMON, TLS} (a closed
tagged enumeration, as the C `enum drgn_symbol_kind` is not among the
sources). -/
inductive SymbolKind where
  | UNKNOWN
  | NOTYPE
  | OBJECT
  | FUNC
  | SECTION
  | FILE
  | COMMON
  | TLS
  deriving DecidableEq, Repr

/-- Numeric code of a binding, as the C enum value handed to the
`SymbolBinding` enumeration class by `Symbol_get_binding`. -/
def SymbolBinding.toCode : SymbolBinding → Nat
  | .UNKNOWN => 0
  | .LOCAL => 1
  | .GLOBAL => 2
  | .WEAK => 3
  | .UNIQUE => 4

/-- Modelled from the spec: the `SymbolBinding` enumeration class looks a
variant up by its numeric code; an unrecognized code is a failure
(`none`), mirroring a value-lookup on a closed enumeration. -/
def SymbolBinding.ofCode : Nat → Option SymbolBinding
  | 0 => some .UNKNOWN
  | 1 => some .LOCAL
  | 2 => some .GLOBAL
  | 3 => some .WEAK
  | 4 => some .UNIQUE
  | _ => none

/-- Numeric code of a kind, as the C enum value handed to the
`SymbolKind` enumeration class by `Symbol_get_kind`. -/
def SymbolKind.toCode : SymbolKind → Nat
  | .UNKNOWN => 0
  | .NOTYPE => 1
  | .OBJECT => 2
  | .FUNC => 3
  | .SECTION => 4
  | .FILE => 5
  | .COMMON => 6
  | .TLS => 7

/-- Modelled from the spec: the `SymbolKind` enumeration class looks a
variant up by its numeric code. -/
def SymbolKind.ofCode : Nat → Option SymbolKind
  | 0 => some .UNKNOWN
  | 1 => some .NOTYPE
  | 2 => some .OBJECT
  | 3 => some .FUNC
  | 4 => some .SECTION
  | 5 => some .FILE
  | 6 => some .COMMON
  | 7 => some .TLS
  | _ => none

/-- Modelled from the spec: a Symbol Record, the immutable value behind
`struct drgn_symbol` — name, 64-bit address, 64-bit size, binding and
kind.  Addresses and sizes are natural numbers; 64-bit range constraints
appear as explicit hypotheses where they matter. -/
structure SymRecord where
  name : String
  address : Nat
  size : Nat
  binding : SymbolBinding
  kind : SymbolKind
  deriving DecidableEq, Repr

/-- Modelled from the spec: `drgn_symbol_name` returns the record's stored
name. -/
def drgn_symbol_name (s : SymRecord) : String := s.name

/-- Modelled from the spec: `drgn_symbol_address` returns the record's
stored address. -/
def drgn_symbol_address (s : SymRecord) : Nat := s.address

/-- Modelled from the spec: `drgn_symbol_size` returns the record's stored
size. -/
def drgn_symbol_size (s : SymRecord) : Nat := s.size

/-- Modelled from the spec: `drgn_symbol_binding` returns the record's
stored binding classification. -/
def drgn_symbol_binding (s : SymRecord) : SymbolBinding := s.binding

/-- Modelled from the spec: `drgn_symbol_kind` returns the record's stored
kind classification. -/
def drgn_symbol_kind (s : SymRecord) : SymbolKind := s.kind

/-- Modelled from the spec: `drgn_symbol_eq` is structural, value equality
over all five fields of the two records. -/
def drgn_symbol_eq (a b : SymRecord) : Bool :=
  a.name == b.name && a.address == b.address && a.size == b.size &&
    a.binding == b.binding && a.kind == b.kind

/-- A Python value as seen by `Symbol_richcompare`: either a Symbol
wrapping a record, or a value of any other type (tagged, so distinct
non-Symbol values exist). -/
inductive PyVal where
  | sym (s : SymRecord)
  | nonSymbol (tag : Nat)

/-- `PyObject_TypeCheck(other, &Symbol_type)` from `Symbol_richcompare`. -/
def PyVal.isSymbol : PyVal → Bool
  | .sym _ => true
  | .nonSymbol _ => false

/-- The six rich-comparison operations of the binding layer. -/
inductive CompOp where
  | eq
  | ne
  | lt
  | le
  | gt
  | ge
  deriving DecidableEq

/-- Outcome of a rich comparison: `Py_NotImplemented` (the not-supported
sentinel) or a Boolean.  `Symbol_richcompare` has no failure outcome:
every path returns one of these. -/
inductive CompareResult where
  | notSupported
  | bool (b : Bool)
  deriving DecidableEq

/-- `Symbol_richcompare` from `src/libdrgn/python/symbol.c`: if `other` is
not a Symbol, or the operation is neither `==` nor `!=`, return
`Py_NotImplemented`; otherwise compute `drgn_symbol_eq` and negate it for
`!=`. -/
def Symbol_richcompare (self : SymRecord) (other : PyVal) (op : CompOp) :
    CompareResult :=
  match other with
  | .nonSymbol _ => .notSupported
  | .sym o =>
    match op with
    | .eq => .bool (drgn_symbol_eq self o)
    | .ne => .bool (!drgn_symbol_eq self o)
    | _ => .notSupported

/-- The `main` record of the spec's worked scenario. -/
def mainSym : SymRecord :=
  { name := "main", address := 0x1000, size := 0x50,
    binding := .GLOBAL, kind := .FUNC }

/-- The `helper` record of the spec's worked scenario. -/
def helperSym : SymRecord :=
  { name := "helper", address := 0x1050, size := 0x20,
    binding := .LOCAL, kind := .FUNC }

end DrgnSymbol

namespace DrgnSymbol

theorem drgn_symbol_eq_iff (a b : SymRecord) :
    drgn_symbol_eq a b = true ↔
      a.name = b.name ∧ a.address = b.address ∧ a.size = b.size ∧
        a.binding = b.binding ∧ a.kind = b.kind := by
  simp [drgn_symbol_eq, Bool.and_eq_true, beq_iff_eq, and_assoc]

/-- C1: the equality operation on two Symbol Records answers `true` iff
all five fields coincide; it is reflexive, symmetric and transitive, and
— the records carrying nothing but their five field values — it depends
only on those values, never on provenance. -/
theorem symbol_equality_structural (a b c : SymRecord) :
    (Symbol_richcompare a (PyVal.sym b) CompOp.eq = CompareResult.bool true ↔
        a.name = b.name ∧ a.address = b.address ∧ a.size = b.size ∧
          a.binding = b.binding ∧ a.kind = b.kind) ∧
      drgn_symbol_eq a a = true ∧
      drgn_symbol_eq a b = drgn_symbol_eq b a ∧
      (drgn_symbol_eq a b = true → drgn_symbol_eq b c = true →
        drgn_symbol_eq a c = true) := by
  refine ⟨?_, ?_, ?_, ?_⟩
  · simpa [Symbol_richcompare] using drgn_symbol_eq_iff a b
  · simp [drgn_symbol_eq]
  · rw [Bool.eq_iff_iff, drgn_symbol_eq_iff, drgn_symbol_eq_iff]
    constructor <;> rintro ⟨h1, h2, h3, h4, h5⟩ <;>
      exact ⟨h1.symm, h2.symm, h3.symm, h4.symm, h5.symm⟩
  · intro hab hbc
    rw [drgn_symbol_eq_iff] at hab hbc ⊢
    obtain ⟨h1, h2, h3, h4, h5⟩ := hab
    obtain ⟨g1, g2, g3, g4, g5⟩ := hbc
    exact ⟨h1.trans g1, h2.trans g2, h3.trans g3, h4.trans g4, h5.trans g5⟩

/-- C1 witness: the equality theorem instantiated at the scenario's
records, with the transitivity hypotheses discharged concretely. -/
theorem symbol_equality_structural_witness :
    (Symbol_richcompare mainSym (PyVal.sym mainSym) CompOp.eq =
        CompareResult.bool true) ∧
      drgn_symbol_eq mainSym mainSym = true := by
  have h := symbol_equality_structural mainSym mainSym mainSym
  exact ⟨h.1.mpr ⟨rfl, rfl, rfl, rfl, rfl⟩, h.2.1⟩

/-- C3: comparing a Symbol Record against any non-Symbol value yields the
not-supported sentinel for both the equality and the inequality check;
`CompareResult` has no failure constructor, so no exception is raised. -/
theorem richcompare_non_symbol_not_supported (s : SymRecord) (v : PyVal)
    (h : v.isSymbol = false) :
    Symbol_richcompare s v CompOp.eq = CompareResult.notSupported ∧
      Symbol_richcompare s v CompOp.ne = CompareResult.notSupported := by
  cases v with
  | sym o => simp [PyVal.isSymbol] at h
  | nonSymbol t => exact ⟨rfl, rfl⟩

/-- C3 witness: a concrete non-Symbol value compared with the scenario's
`main` record. -/
theorem richcompare_non_symbol_not_supported_witness :
    (PyVal.nonSymbol 0).isSymbol = false ∧
      Symbol_richcompare mainSym (PyVal.nonSymbol 0) CompOp.eq =
        CompareResult.notSupported ∧
      Symbol_richcompare mainSym (PyVal.nonSymbol 0) CompOp.ne =
        CompareResult.notSupported :=
  ⟨rfl, richcompare_non_symbol_not_supported mainSym (PyVal.nonSymbol 0) rfl⟩

/-- C4: every ordering comparison between two Symbol Records answers the
not-supported sentinel — never a Boolean, and (`CompareResult` having no
failure constructor) never an error. -/
theorem richcompare_ordering_not_supported (a b : SymRecord) :
    Symbol_richcompare a (PyVal.sym b) CompOp.lt = CompareResult.notSupported ∧
      Symbol_richcompare a (PyVal.sym b) CompOp.le = CompareResult.notSupported ∧
      Symbol_richcompare a (PyVal.sym b) CompOp.gt = CompareResult.notSupported ∧
      Symbol_richcompare a (PyVal.sym b) CompOp.ge = CompareResult.notSupported :=
  ⟨rfl, rfl, rfl, rfl⟩

/-- C9: for any two Symbol Records the inequality check answers exactly
the Boolean negation of the equality check. -/
theorem richcompare_ne_negates_eq (a b : SymRecord) :
    ∃ x : Bool,
      Symbol_richcompare a (PyVal.sym b) CompOp.eq = CompareResult.bool x ∧
        Symbol_richcompare a (PyVal.sym b) CompOp.ne =
          CompareResult.bool (!x) :=
  ⟨drgn_symbol_eq a b, rfl, rfl⟩

/-- `Symbol_get_name` from the source: `PyUnicode_FromString` on
`drgn_symbol_name`. -/
def Symbol_get_name (self : SymRecord) : String :=
  drgn_symbol_name self

/-- `Symbol_get_address` from the source: `PyLong_FromUint64` on
`drgn_symbol_address`. -/
def Symbol_get_address (self : SymRecord) : Nat :=
  drgn_symbol_address self

/-- `Symbol_get_size` from the source: `PyLong_FromUint64` on
`drgn_symbol_size`. -/
def Symbol_get_size (self : SymRecord) : Nat :=
  drgn_symbol_size self

/-- `Symbol_get_binding` from the source: the `SymbolBinding` enumeration
class called on the numeric code of `drgn_symbol_binding`. -/
def Symbol_get_binding (self : SymRecord) : Option SymbolBinding :=
  SymbolBinding.ofCode (drgn_symbol_binding self).toCode

/-- `Symbol_get_kind` from the source: the `SymbolKind` enumeration class
called on the numeric code of `drgn_symbol_kind`. -/
def Symbol_get_kind (self : SymRecord) : Option SymbolKind :=
  SymbolKind.ofCode (drgn_symbol_kind self).toCode

theorem binding_ofCode_toCode (b : SymbolBinding) :
    SymbolBinding.ofCode b.toCode = some b := by
  cases b <;> rfl

theorem kind_ofCode_toCode (k : SymbolKind) :
    SymbolKind.ofCode k.toCode = some k := by
  cases k <;> rfl

/-- C7: each accessor returns exactly the stored field of the record:
`name`, `address` and `size` verbatim (addresses and sizes staying in the
64-bit range whenever the stored field is), and `binding`/`kind` the
enumeration variant whose numeric code equals the record's stored code
(the enumeration-class call never fails). -/
theorem accessors_return_stored_fields (s : SymRecord)
    (haddr : s.address < 2 ^ 64) (hsize : s.size < 2 ^ 64) :
    Symbol_get_name s = s.name ∧
      Symbol_get_address s = s.address ∧ Symbol_get_address s < 2 ^ 64 ∧
      Symbol_get_size s = s.size ∧ Symbol_get_size s < 2 ^ 64 ∧
      Symbol_get_binding s = some s.binding ∧
      (∀ b, Symbol_get_binding s = some b → b.toCode = s.binding.toCode) ∧
      Symbol_get_kind s = some s.kind ∧
      (∀ k, Symbol_get_kind s = some k → k.toCode = s.kind.toCode) := by
  refine ⟨rfl, rfl, haddr, rfl, hsize, ?_, ?_, ?_, ?_⟩
  · exact binding_ofCode_toCode s.binding
  · intro b hb
    rw [Symbol_get_binding, drgn_symbol_binding,
      binding_ofCode_toCode] at hb
    rw [Option.some_inj.mp hb]
  · exact kind_ofCode_toCode s.kind
  · intro k hk
    rw [Symbol_get_kind, drgn_symbol_kind, kind_ofCode_toCode] at hk
    rw [Option.some_inj.mp hk]

/-- C7 witness: the accessor theorem at the scenario's `main` record. -/
theorem accessors_return_stored_fields_witness :
    Symbol_get_name mainSym = "main" ∧
      Symbol_get_address mainSym = 0x1000 ∧
      Symbol_get_size mainSym = 0x50 ∧
      Symbol_get_binding mainSym = some SymbolBinding.GLOBAL ∧
      Symbol_get_kind mainSym = some SymbolKind.FUNC := by
  have h := accessors_return_stored_fields mainSym (by decide) (by decide)
  exact ⟨h.1, h.2.1, h.2.2.2.1, h.2.2.2.2.2.1, h.2.2.2.2.2.2.2.1⟩

/-- The quote character CPython chooses when printing a text: a double
quote iff the text contains a single quote but no double quote, else a
single quote.  Modelled from CPython's str repr, which the source invokes
through the %R conversion of `PyUnicode_FromFormat` on the name. -/
def pyQuoteChar (s : String) : Char :=
  if s.data.contains '\'' && !s.data.contains '\"' then '\"' else '\''

/-- One character of the quoted text: backslashes and the quote character
are escaped with a backslash. -/
def pyEscapeChar (q c : Char) : List Char :=
  if c = '\\' || c = q then ['\\', c] else [c]

/-- Modelled from CPython's str repr (the %R conversion on the name):
the chosen quote around the text, with backslashes and the quote
character escaped.  Escaping of non-printable characters is elided:
symbol names are printable identifiers. -/
def pyStrRepr (s : String) : String :=
  let q := pyQuoteChar s
  String.mk (q :: (s.data.map (pyEscapeChar q)).flatten ++ [q])

/-- The lowercase hexadecimal digit characters of the `%x` conversion. -/
def hexDigitChar (d : Nat) : Char :=
  if d < 10 then Char.ofNat (48 + d) else Char.ofNat (87 + d)

/-- The hexadecimal digits of `n`, most significant first, no leading
zeros (empty for zero); `fuel` bounds the digit count — 16 digits cover
every `uint64_t`, the argument type of the `PRIx64` conversion. -/
def hexDigitsOf : Nat → Nat → List Char
  | 0, _ => []
  | fuel + 1, n =>
    if n = 0 then [] else hexDigitsOf fuel (n / 16) ++ [hexDigitChar (n % 16)]

/-- `sprintf(buf, "0x%" PRIx64, v)` from `Symbol_repr`: "0x" followed by
the lowercase hexadecimal digits of `v` without leading zeros ("0x0" for
zero). -/
def sprintf_hex64 (v : Nat) : String :=
  "0x" ++ (if v = 0 then "0" else String.mk (hexDigitsOf 16 v))

/-- Modelled from the spec: the display name of a binding variant, as
describe() renders the binding (`binding=<binding name>`). -/
def SymbolBinding.reprStr : SymbolBinding → String
  | .UNKNOWN => "UNKNOWN"
  | .LOCAL => "LOCAL"
  | .GLOBAL => "GLOBAL"
  | .WEAK => "WEAK"
  | .UNIQUE => "UNIQUE"

/-- Modelled from the spec: the display name of a kind variant, as
describe() renders the kind (`kind=<kind name>`). -/
def SymbolKind.reprStr : SymbolKind → String
  | .UNKNOWN => "UNKNOWN"
  | .NOTYPE => "NOTYPE"
  | .OBJECT => "OBJECT"
  | .FUNC => "FUNC"
  | .SECTION => "SECTION"
  | .FILE => "FILE"
  | .COMMON => "COMMON"
  | .TLS => "TLS"

/-- `Symbol_repr` from the source (the describe()/repr operation): build
the name, binding and kind sub-objects (`none` on a failed construction,
as the C returns NULL), format address and size with
`sprintf("0x%" PRIx64)`, and assemble
`Symbol(name=%R, address=%s, size=%s, binding=%R, kind=%R)`. -/
def Symbol_repr (self : SymRecord) : Option String := do
  let name := pyStrRepr (drgn_symbol_name self)
  let binding ← Symbol_get_binding self
  let kind ← Symbol_get_kind self
  let address := sprintf_hex64 (drgn_symbol_address self)
  let size := sprintf_hex64 (drgn_symbol_size self)
  pure ("Symbol(name=" ++ name ++ ", address=" ++ address ++ ", size=" ++
    size ++ ", binding=" ++ binding.reprStr ++ ", kind=" ++ kind.reprStr ++
    ")")

/-- C5: describe() produces exactly
`Symbol(name=<quoted name>, address=0x<hex>, size=0x<hex>,
binding=<binding name>, kind=<kind name>)`; on the scenario's `main`
record this is the spec's exact example string. -/
theorem describe_format (s : SymRecord) :
    Symbol_repr s =
      some ("Symbol(name=" ++ pyStrRepr s.name ++
        ", address=" ++ sprintf_hex64 s.address ++
        ", size=" ++ sprintf_hex64 s.size ++
        ", binding=" ++ s.binding.reprStr ++
        ", kind=" ++ s.kind.reprStr ++ ")") ∧
      Symbol_repr mainSym =
        some
          "Symbol(name='main', address=0x1000, size=0x50, binding=GLOBAL, kind=FUNC)" := by
  constructor
  · simp [Symbol_repr, Symbol_get_binding, Symbol_get_kind,
      drgn_symbol_binding, drgn_symbol_kind, drgn_symbol_name,
      drgn_symbol_address, drgn_symbol_size, binding_ofCode_toCode,
      kind_ofCode_toCode]
  · decide

theorem hexDigitsOf_length_le (fuel n : Nat) :
    (hexDigitsOf fuel n).length ≤ fuel := by
  induction fuel generalizing n with
  | zero => simp [hexDigitsOf]
  | succ k ih =>
    rw [hexDigitsOf]
    split
    · simp
    · have := ih (n / 16)
      simp only [List.length_append, List.length_cons, List.length_nil]
      omega

/-- C10: the text `sprintf` writes for `"0x%" PRIx64` — "0x" plus at most
16 hexadecimal digits — is at most 18 characters, so with the
terminating NUL it fits the 19-byte `address`/`size` buffers of
`Symbol_repr`. -/
theorem sprintf_hex64_fits_buffer (v : Nat) (h : v < 2 ^ 64) :
    (sprintf_hex64 v).length ≤ 18 ∧ (sprintf_hex64 v).length + 1 ≤ 19 := by
  have hlen : (sprintf_hex64 v).length ≤ 18 := by
    rw [sprintf_hex64, String.length_append]
    split
    · decide
    · have := hexDigitsOf_length_le 16 v
      simp only [String.length]
      simpa using by omega
  exact ⟨hlen, by omega⟩

/-- C10 witness: the bound at the largest 64-bit value. -/
theorem sprintf_hex64_fits_buffer_witness :
    (sprintf_hex64 (2 ^ 64 - 1)).length ≤ 18 ∧
      (sprintf_hex64 (2 ^ 64 - 1)).length + 1 ≤ 19 :=
  sprintf_hex64_fits_buffer (2 ^ 64 - 1) (by decide)

/-- The construction failure of the spec's error taxonomy. -/
inductive SymbolError where
  | invalidSymbol
  deriving DecidableEq

/-- Modelled from the spec: Symbol Record construction — validates that
`address + size` does not overflow 64 bits and fails with `InvalidSymbol`
when it would; binding and kind arrive as variants of the closed
enumerations, so no further validation exists. -/
def drgn_symbol_create (name : String) (address size : Nat)
    (binding : SymbolBinding) (kind : SymbolKind) :
    Except SymbolError SymRecord :=
  if address + size < 2 ^ 64 then
    .ok { name := name, address := address, size := size,
          binding := binding, kind := kind }
  else
    .error .invalidSymbol

/-- C6: construction fails with `InvalidSymbol` exactly when
`address + size` overflows 64 bits, and every successfully constructed
record satisfies `address + size < 2^64`. -/
theorem construction_overflow_check (name : String) (address size : Nat)
    (binding : SymbolBinding) (kind : SymbolKind) :
    (drgn_symbol_create name address size binding kind =
        Except.error SymbolError.invalidSymbol ↔ 2 ^ 64 ≤ address + size) ∧
      ∀ r, drgn_symbol_create name address size binding kind = Except.ok r →
        r.address + r.size < 2 ^ 64 := by
  constructor
  · rw [drgn_symbol_create]
    split
    · constructor
      · intro hc
        exact absurd hc (by simp)
      · omega
    · simp
      omega
  · intro r hr
    rw [drgn_symbol_create] at hr
    split at hr
    · cases hr
      simpa using by omega
    · cases hr

/-- `Symbol_get_name` as a state transformer on the wrapped record: the C
body reads `self->sym` and stores nothing, so the result is paired with
the record state the call leaves behind. -/
def Symbol_get_name_st (self : SymRecord) : String × SymRecord :=
  (Symbol_get_name self, self)

/-- `Symbol_get_address` as a state transformer on the wrapped record. -/
def Symbol_get_address_st (self : SymRecord) : Nat × SymRecord :=
  (Symbol_get_address self, self)

/-- `Symbol_get_size` as a state transformer on the wrapped record. -/
def Symbol_get_size_st (self : SymRecord) : Nat × SymRecord :=
  (Symbol_get_size self, self)

/-- `Symbol_get_binding` as a state transformer on the wrapped record. -/
def Symbol_get_binding_st (self : SymRecord) :
    Option SymbolBinding × SymRecord :=
  (Symbol_get_binding self, self)

/-- `Symbol_get_kind` as a state transformer on the wrapped record. -/
def Symbol_get_kind_st (self : SymRecord) : Option SymbolKind × SymRecord :=
  (Symbol_get_kind self, self)

/-- `Symbol_repr` as a state transformer on the wrapped record. -/
def Symbol_repr_st (self : SymRecord) : Option String × SymRecord :=
  (Symbol_repr self, self)

/-- `Symbol_richcompare` as a state transformer on the wrapped record. -/
def Symbol_richcompare_st (self : SymRecord) (other : PyVal) (op : CompOp) :
    CompareResult × SymRecord :=
  (Symbol_richcompare self other op, self)

/-- C8: no exposed operation mutates the record — each accessor,
describe() and every comparison leaves all five fields exactly as they
were — and the display string is a function of the five field values
alone (computed per call, not read from stored state). -/
theorem operations_never_mutate (s t : SymRecord) (other : PyVal)
    (op : CompOp) :
    (Symbol_get_name_st s).2 = s ∧
      (Symbol_get_address_st s).2 = s ∧
      (Symbol_get_size_st s).2 = s ∧
      (Symbol_get_binding_st s).2 = s ∧
      (Symbol_get_kind_st s).2 = s ∧
      (Symbol_repr_st s).2 = s ∧
      (Symbol_richcompare_st s other op).2 = s ∧
      ((Symbol_repr_st s).2).name = s.name ∧
      ((Symbol_repr_st s).2).address = s.address ∧
      ((Symbol_repr_st s).2).size = s.size ∧
      ((Symbol_repr_st s).2).binding = s.binding ∧
      ((Symbol_repr_st s).2).kind = s.kind ∧
      (s.name = t.name → s.address = t.address → s.size = t.size →
        s.binding = t.binding → s.kind = t.kind →
        Symbol_repr s = Symbol_repr t) := by
  refine ⟨rfl, rfl, rfl, rfl, rfl, rfl, rfl, rfl, rfl, rfl, rfl, rfl,
    fun h1 h2 h3 h4 h5 => ?_⟩
  have : s = t := by
    cases s
    cases t
    simp_all
  rw [this]

/-- C8 witness: the frame theorem at the scenario's `main` record, the
computed-not-stored hypotheses discharged at `main` itself. -/
theorem operations_never_mutate_witness :
    (Symbol_repr_st mainSym).2 = mainSym ∧
      Symbol_repr mainSym = Symbol_repr mainSym := by
  have h := operations_never_mutate mainSym mainSym (PyVal.nonSymbol 0)
    CompOp.eq
  exact ⟨h.2.2.2.2.2.1, h.2.2.2.2.2.2.2.2.2.2.2.2 rfl rfl rfl rfl rfl⟩

/-- Modelled from the spec: a Symbol Index — the merged, queryable
structure over the Symbol Records of one or more Symbol Tables. -/
structure SymIndex where
  records : List SymRecord

/-- Modelled from the spec: a record covers `addr` when
`address ≤ addr < address + max(size, 1)` — so a zero-size record covers
exactly its start address. -/
def coversAddr (r : SymRecord) (addr : Nat) : Bool :=
  decide (r.address ≤ addr) && decide (addr < r.address + max r.size 1)

/-- Modelled from the spec: the tie-break preference among records
covering the same address — strictly smaller size wins (most specific),
then GLOBAL binding over the others; the remaining preferences (image
recency, first-encountered order) keep the incumbent candidate. -/
def preferRec (challenger best : SymRecord) : Bool :=
  decide (challenger.size < best.size) ||
    (challenger.size == best.size &&
      challenger.binding == SymbolBinding.GLOBAL &&
      !(best.binding == SymbolBinding.GLOBAL))

/-- Modelled from the spec: `find_containing(address)` — among the
records whose range contains the address, keep the preferred one;
not-found when no record contains it. -/
def find_containing (idx : SymIndex) (addr : Nat) : Option SymRecord :=
  match idx.records.filter (fun r => coversAddr r addr) with
  | [] => none
  | r :: rs =>
    some (rs.foldl (fun best c => if preferRec c best then c else best) r)

theorem pickBest_mem (r : SymRecord) (rs : List SymRecord) :
    rs.foldl (fun best c => if preferRec c best then c else best) r ∈
      r :: rs := by
  induction rs generalizing r with
  | nil => simp
  | cons c cs ih =>
    rw [List.foldl_cons]
    by_cases h : preferRec c r = true
    · rw [if_pos h]
      exact List.mem_cons_of_mem r (ih c)
    · rw [if_neg h]
      rcases List.mem_cons.mp (ih r) with h1 | h1
      · rw [List.mem_cons]
        exact Or.inl h1
      · exact List.mem_cons_of_mem r (List.mem_cons_of_mem c h1)

/-- C2: `find_containing` answers a record iff that record's range
`[address, address + max(size, 1))` contains the queried address: any
returned record is one of the index's records and covers the address, the
not-found answer comes exactly when no record covers it (equivalently, a
record is returned iff some record covers the address), and a zero-size
record covers exactly its own start address. -/
theorem find_containing_range (idx : SymIndex) (addr : Nat) :
    (∀ r, find_containing idx addr = some r →
        r ∈ idx.records ∧ r.address ≤ addr ∧
          addr < r.address + max r.size 1) ∧
      (find_containing idx addr = none ↔
        ∀ r ∈ idx.records,
          ¬(r.address ≤ addr ∧ addr < r.address + max r.size 1)) ∧
      ((∃ r ∈ idx.records,
          r.address ≤ addr ∧ addr < r.address + max r.size 1) ↔
        (find_containing idx addr).isSome = true) ∧
      ∀ r : SymRecord, r.size = 0 →
        ∀ a, coversAddr r a = true ↔ a = r.address := by
  have hcov : ∀ (r : SymRecord) (a : Nat), coversAddr r a = true ↔
      r.address ≤ a ∧ a < r.address + max r.size 1 := by
    intro r a
    rw [coversAddr, Bool.and_eq_true, decide_eq_true_iff, decide_eq_true_iff]
  have hzero : ∀ r : SymRecord, r.size = 0 →
      ∀ a, coversAddr r a = true ↔ a = r.address := by
    intro r hr0 a
    rw [hcov r a, hr0]
    have hmax : max 0 1 = 1 := rfl
    rw [hmax]
    omega
  rcases hF : idx.records.filter (fun x => coversAddr x addr) with _ | ⟨x, xs⟩
  · have hfind : find_containing idx addr = none := by
      rw [find_containing, hF]
    have hnocov : ∀ r ∈ idx.records,
        ¬(r.address ≤ addr ∧ addr < r.address + max r.size 1) := by
      intro r hrmem hrange
      have : r ∈ idx.records.filter (fun x => coversAddr x addr) :=
        List.mem_filter.mpr ⟨hrmem, (hcov r addr).mpr hrange⟩
      rw [hF] at this
      cases this
    refine ⟨?_, ?_, ?_, hzero⟩
    · intro r hr
      rw [hfind] at hr
      cases hr
    · exact ⟨fun _ => hnocov, fun _ => hfind⟩
    · constructor
      · rintro ⟨r, hrmem, hrange⟩
        exact absurd hrange (hnocov r hrmem)
      · intro hs
        rw [hfind] at hs
        cases hs
  · have hfind : find_containing idx addr =
        some (xs.foldl (fun best c => if preferRec c best then c else best)
          x) := by
      rw [find_containing, hF]
    have hxmem : x ∈ idx.records.filter (fun y => coversAddr y addr) := by
      rw [hF]
      exact List.mem_cons_self x xs
    have hx := List.mem_filter.mp hxmem
    refine ⟨?_, ?_, ?_, hzero⟩
    · intro r hr
      rw [hfind] at hr
      have heq :
          xs.foldl (fun best c => if preferRec c best then c else best) x =
            r := by
        injection hr
      subst heq
      have hm := pickBest_mem x xs
      rw [← hF] at hm
      have hmf := List.mem_filter.mp hm
      exact ⟨hmf.1, (hcov _ addr).mp hmf.2⟩
    · constructor
      · intro hn
        rw [hfind] at hn
        cases hn
      · intro hall
        exact absurd ((hcov x addr).mp hx.2) (hall x hx.1)
    · constructor
      · intro _
        rw [hfind]
        rfl
      · intro _
        exact ⟨x, hx.1, (hcov x addr).mp hx.2⟩

/-- C2 witness: the containment theorem at the spec's worked scenario —
`find_containing(0x1010)` on the index of `main` and `helper` yields a
record that is in the index and covers `0x1010`. -/
theorem find_containing_range_witness :
    mainSym ∈ (SymIndex.mk [mainSym, helperSym]).records ∧
      mainSym.address ≤ 0x1010 ∧
      0x1010 < mainSym.address + max mainSym.size 1 :=
  (find_containing_range (SymIndex.mk [mainSym, helperSym]) 0x1010).1
    mainSym (by decide)

/-- C6 witness: the overflow-check theorem at the scenario's `main`
parameters — the construction succeeds and the sum stays in 64 bits. -/
theorem construction_overflow_check_witness :
    mainSym.address + mainSym.size < 2 ^ 64 :=
  (construction_overflow_check "main" 0x1000 0x50 SymbolBinding.GLOBAL
    SymbolKind.FUNC).2 mainSym (by rfl)
